import Mathlib

/-!
Shallow embedding of the zillow-scraper repository's core components, with
theorems checking the natural-language specification against the code.

Embedded components:
* `scrapers/base.py` — `BaseScraper._make_request` retry/classification logic
* `core/rate_limiter.py` — `RateLimiter.is_allowed`
* `core/proxy_manager.py` — `ProxyManager.get_proxy` / `mark_proxy_failed` /
  `mark_proxy_success`
* `api/views.py` — `build_paginated_response`
* `scrapers/utils.py` — `clean_price`
* `scrapers/property_scraper.py` — `find_total` and the `_parse_search_results`
  aggregation
* `scrapers/agent_scraper.py` — the `get_agent_reviews` /
  `get_agents_by_location` result aggregation

Machine integers are modelled as `Nat`/`Int`; wall-clock times and the values
drawn by `random.uniform` are modelled as `ℚ`; Python exceptions are modelled
as explicit result constructors or `Option`/`Except`.
-/

namespace ZillowScraper

/-! ## Resilient fetcher: `BaseScraper._make_request` (scrapers/base.py) -/
/-- Classification of the outcome of one HTTP attempt inside `_make_request`
(scrapers/base.py, lines 111-135): HTTP 403 and 429 raise `BlockedException`,
HTTP 404 raises `NotFoundException`, any other non-2xx status raises
`requests.exceptions.HTTPError` via `raise_for_status`, and network failures
raise other `requests.exceptions.RequestException` subclasses. -/
inductive Outcome where
  | success
  | http403
  | http429
  | http404
  | otherHTTPError
  | transportError
deriving DecidableEq

/-- An outcome is retryable exactly when the raised exception is caught by the
handler `except (requests.exceptions.RequestException, BlockedException)`
(scrapers/base.py, line 143). `NotFoundException` extends `ScraperException`,
not `RequestException`, so HTTP 404 is not caught there. -/
def Outcome.retryable : Outcome → Bool
  | .http403 => true
  | .http429 => true
  | .otherHTTPError => true
  | .transportError => true
  | _ => false

/-- Result of a whole `_make_request` call: success, an uncaught
`NotFoundException`, or the final `ScraperException` raised once the retry
ceiling is exhausted. `noResponse` is a model artifact for an exhausted
outcome stream and never occurs in the runs considered here. -/
inductive FetchResult where
  | ok
  | notFound
  | scraperError
  | noResponse
deriving DecidableEq

/-- Observable side effects of a `_make_request` call: the jittered delays
slept by `_delay`, the number of `mark_proxy_failed` and `mark_proxy_success`
calls, and the number of HTTP attempts issued. -/
structure FetchTrace where
  sleeps : List ℚ
  markedFailed : ℕ
  markedSuccess : ℕ
  attempts : ℕ
deriving DecidableEq

/-- The delay slept at the start of `_make_request` (scrapers/base.py, lines
105-106): `_delay` sleeps a `random.uniform(delay_min, delay_max)` draw, but
only when `retry_count > 0`. The draw for attempt `r` is modelled by the
stream `jitter r`. -/
def preSleep (jitter : ℕ → ℚ) (retryCount : ℕ) : List ℚ :=
  if 0 < retryCount then [jitter retryCount] else []

/-- Embedding of `BaseScraper._make_request` (scrapers/base.py, lines 77-163)
over a stream of attempt outcomes. `useProxy` models `proxies` being non-None
(a proxy was obtained and is in use). On each attempt: sleep first when
`retry_count > 0`; on success mark the proxy successful and return; on HTTP
404 the `NotFoundException` propagates uncaught with no proxy bookkeeping; on
a retryable outcome mark the proxy failed, then either recurse with
`retry_count + 1` (while `retry_count < max_retries`) or raise the generic
`ScraperException`. -/
def makeRequest (jitter : ℕ → ℚ) (maxRetries : ℕ) (useProxy : Bool) :
    List Outcome → ℕ → FetchResult × FetchTrace
  | [], retryCount =>
      (.noResponse, ⟨preSleep jitter retryCount, 0, 0, 0⟩)
  | o :: rest, retryCount =>
      let pre := preSleep jitter retryCount
      let mf : ℕ := if useProxy then 1 else 0
      match o with
      | .success => (.ok, ⟨pre, 0, mf, 1⟩)
      | .http404 => (.notFound, ⟨pre, 0, 0, 1⟩)
      | _ =>
          if retryCount < maxRetries then
            let r := makeRequest jitter maxRetries useProxy rest (retryCount + 1)
            (r.1, ⟨pre ++ r.2.sleeps, mf + r.2.markedFailed, r.2.markedSuccess,
                   1 + r.2.attempts⟩)
          else
            (.scraperError, ⟨pre, mf, 0, 1⟩)

/-! ## Pagination: `build_paginated_response` (api/views.py) -/
/-- The `pagination` sub-dictionary built by `build_paginated_response`
(api/views.py, lines 43-57). -/
structure PaginationMeta where
  total_results : ℕ
  total_pages : ℕ
  current_page : ℕ
  per_page : ℕ
  has_next : Bool
  has_previous : Bool
deriving DecidableEq

/-- The full response dictionary built by `build_paginated_response`. -/
structure PaginatedResponse (α : Type) where
  count : ℕ
  results : List α
  pagination : PaginationMeta

/-- Default page size (api/views.py, line 28). -/
def DEFAULT_PER_PAGE : ℕ := 40

/-- Embedding of `build_paginated_response` (api/views.py, lines 43-57):
`total_pages = max(1, (total_results + per_page - 1) // per_page)`,
`has_next = current_page < total_pages`,
`has_previous = current_page > 1`. -/
def build_paginated_response {α : Type} (results : List α)
    (total_results current_page per_page : ℕ) : PaginatedResponse α :=
  let total_pages := max 1 ((total_results + per_page - 1) / per_page)
  { count := results.length
    results := results
    pagination :=
      { total_results := total_results
        total_pages := total_pages
        current_page := current_page
        per_page := per_page
        has_next := decide (current_page < total_pages)
        has_previous := decide (current_page > 1) } }

/-! ## Price cleaning: `clean_price` (scrapers/utils.py) -/
/-- Characters kept by the regex substitution in `clean_price`
(scrapers/utils.py, line 91): the pattern removes everything that is not a
digit and not a literal dot. -/
def isPriceChar (c : Char) : Bool := c.isDigit || c = '.'

/-- The cleaned character sequence: `re.sub(r"[^\d.]", "", s)`. -/
def stripNonNumeric (s : String) : List Char := s.data.filter isPriceChar

/-- Value of a (possibly empty) digit string read in base 10. -/
def digitsVal (ds : List Char) : ℕ :=
  ds.foldl (fun acc c => 10 * acc + (c.toNat - '0'.toNat)) 0

/-- Splits a character list on the dot character, like `str.split(".")`. -/
def splitDot : List Char → List (List Char)
  | [] => [[]]
  | c :: rest =>
      if c = '.' then [] :: splitDot rest
      else
        match splitDot rest with
        | [] => [[c]]
        | h :: t => (c :: h) :: t

/-- Behaviour of Python `float()` on a string made only of digits and dots:
it succeeds exactly when the string contains at most one dot and at least one
digit (so `"123"`, `"1."`, `".5"` parse while `""`, `"."`, `"1.2.3"` raise
`ValueError`, modelled as `none`). -/
def pyFloatOfDigitsDots (l : List Char) : Option ℚ :=
  match splitDot l with
  | [ds] => if ds = [] then none else some (digitsVal ds : ℚ)
  | [as, bs] =>
      if as = [] ∧ bs = [] then none
      else some ((digitsVal as : ℚ) + (digitsVal bs : ℚ) / (10 : ℚ) ^ bs.length)
  | _ => none

/-- Embedding of `clean_price` (scrapers/utils.py, lines 76-94). The argument
is `Option String` so that the Python `None` input is representable; the
`if not price_str` guard maps `None` and `""` to `None`, then the cleaned
string is parsed, with `ValueError` caught and turned into `None`. -/
def clean_price : Option String → Option ℚ
  | none => none
  | some s =>
      if s.data = [] then none
      else
        let cleaned := stripNonNumeric s
        if cleaned = [] then none else pyFloatOfDigitsDots cleaned

/-! ## Proxy manager (core/proxy_manager.py) -/
/-- Fixed exclusion window `BLACKLIST_DURATION` (core/proxy_manager.py,
line 26). -/
def BLACKLIST_DURATION : ℚ := 300

/-- State held by the `ProxyManager` in the shared cache: the round-robin
cursor `proxy_manager:current_index` (stored with `timeout=None`, so it never
expires; `cache.get(..., 0)` defaults it to 0) and the blacklist entry
`proxy_manager:blacklist`, a set stored with a single TTL. The set is modelled
as a duplicate-free list; `blExpiry` is the instant at which the cache entry
expires, after which `cache.get` returns the default empty set. -/
structure ProxyState where
  currentIndex : ℕ
  blSet : List String
  blExpiry : ℚ
deriving DecidableEq

/-- The blacklist as observed by `cache.get(CACHE_KEY_BLACKLIST, set())` at
time `t`: the stored set while the entry is alive, the empty set once the TTL
has lapsed. -/
def effBlacklist (s : ProxyState) (t : ℚ) : List String :=
  if t < s.blExpiry then s.blSet else []

/-- The `available_proxies` list computed inside `get_proxy`
(core/proxy_manager.py, lines 49-55): the pool with blacklisted endpoints
removed, degrading to the whole pool when everything is blacklisted. -/
def availableProxies (proxies : List String) (s : ProxyState) (t : ℚ) :
    List String :=
  if proxies.filter (fun p => decide (p ∉ effBlacklist s t)) = [] then proxies
  else proxies.filter (fun p => decide (p ∉ effBlacklist s t))

/-- Embedding of `ProxyManager.get_proxy` (core/proxy_manager.py, lines
38-68): with an empty pool return `None`; otherwise pick
`available[current_index % len(available)]` and store
`(current_index + 1) % len(available)` as the next cursor. The returned
request-proxy dictionary `{'http': p, 'https': p}` is represented by the
endpoint `p` itself. -/
def getProxy (proxies : List String) (s : ProxyState) (t : ℚ) :
    Option String × ProxyState :=
  if proxies = [] then (none, s)
  else
    ((availableProxies proxies s t)[s.currentIndex %
        (availableProxies proxies s t).length]?,
     { s with currentIndex :=
        (s.currentIndex + 1) % (availableProxies proxies s t).length })

/-- Embedding of `ProxyManager.mark_proxy_failed` (core/proxy_manager.py,
lines 81-91): read the current (possibly lapsed) blacklist, add the endpoint,
and store the whole set again with a fresh `BLACKLIST_DURATION` TTL. -/
def markProxyFailed (s : ProxyState) (e : String) (t : ℚ) : ProxyState :=
  let bl := effBlacklist s t
  { s with blSet := bl.insert e, blExpiry := t + BLACKLIST_DURATION }

/-- Embedding of `ProxyManager.mark_proxy_success` (core/proxy_manager.py,
lines 93-104): when the endpoint is currently blacklisted, discard it and
store the set again with a fresh `BLACKLIST_DURATION` TTL; otherwise leave the
cache untouched. -/
def markProxySuccess (s : ProxyState) (e : String) (t : ℚ) : ProxyState :=
  let bl := effBlacklist s t
  if e ∈ bl then { s with blSet := bl.erase e, blExpiry := t + BLACKLIST_DURATION }
  else s

/-- Runs a sequence of `get_proxy` calls at the given times, collecting the
returned endpoints. -/
def runGetProxies (proxies : List String) :
    List ℚ → ProxyState → List (Option String) × ProxyState
  | [], s => ([], s)
  | t :: ts, s =>
      let r := getProxy proxies s t
      let rest := runGetProxies proxies ts r.2
      (r.1 :: rest.1, rest.2)

/-- One operation against the shared proxy-manager state: a `get_proxy` call,
a `mark_proxy_failed(e)` call, or a `mark_proxy_success(e)` call. -/
inductive ProxyOp where
  | get
  | fail (e : String)
  | succ (e : String)
deriving DecidableEq

/-- Applies one timed operation to the proxy-manager state (the endpoint
returned by `get` is dropped; only the state evolution matters here). -/
def applyProxyOp (proxies : List String) (s : ProxyState) : ProxyOp × ℚ → ProxyState
  | (.get, t) => (getProxy proxies s t).2
  | (.fail e, t) => markProxyFailed s e t
  | (.succ e, t) => markProxySuccess s e t

/-- Runs a timed operation sequence against the proxy-manager state. -/
def runProxyOps (proxies : List String) (ops : List (ProxyOp × ℚ))
    (s : ProxyState) : ProxyState :=
  ops.foldl (applyProxyOp proxies) s

/-- The endpoint `e` staying in the stored blacklist with an expiry no earlier
than `d`. -/
def BlacklistedThrough (e : String) (d : ℚ) (s : ProxyState) : Prop :=
  e ∈ s.blSet ∧ d ≤ s.blExpiry

/-! ## Rate limiter (core/rate_limiter.py) -/
/-- Python `int()` truncates toward zero. -/
def pyInt (q : ℚ) : ℤ := if 0 ≤ q then ⌊q⌋ else -⌊-q⌋

/-- Python `%` on numbers: `a - b * floor(a / b)`. -/
def pyMod (a b : ℚ) : ℚ := a - b * ⌊a / b⌋

/-- The two window kinds appearing in `_get_cache_key`. -/
inductive Window where
  | minute
  | hour
deriving DecidableEq

/-- A rate-limit cache key. `_get_cache_key` (core/rate_limiter.py, lines
29-31) injects the identifier, the window kind, and the window index into a
string `rate_limit:{identifier}:{window}:{index}`; the key is modelled by the
triple itself, which that encoding determines uniquely. -/
structure RLKey where
  id : String
  window : Window
  idx : ℤ
deriving DecidableEq

/-- The Django cache as seen by the rate limiter: each key optionally holds a
counter value together with the instant its TTL expires. -/
def RLCache := RLKey → Option (ℕ × ℚ)

/-- The initial cache with no counters stored. -/
def emptyRLCache : RLCache := fun _ => none

/-- Models `cache.get(key, 0)` at time `t`: the stored value while it is
live, the default 0 once expired or absent. -/
def cacheGet (c : RLCache) (t : ℚ) (k : RLKey) : ℕ :=
  match c k with
  | some v => if t < v.2 then v.1 else 0
  | none => 0

/-- Models `cache.set(key, v, timeout=d)` performed at time `t`, storing the
value with expiry instant `ex = t + d`. -/
def cacheSet (c : RLCache) (k : RLKey) (v : ℕ) (ex : ℚ) : RLCache :=
  fun k2 => if k2 = k then some (v, ex) else c k2

/-- The two configured ceilings of `RateLimiter.__init__`. -/
structure RateLimiter where
  requests_per_minute : ℕ
  requests_per_hour : ℕ

/-- Embedding of `RateLimiter.is_allowed` (core/rate_limiter.py, lines
33-68) called at wall-clock time `t`: read the minute counter at index
`int(t // 60)`; if it has reached the minute ceiling, deny with
`60 - int(t % 60)` and leave the cache alone; otherwise read the hour counter
at index `int(t // 3600)`; if it has reached the hour ceiling, deny with
`3600 - int(t % 3600)`; otherwise store both counters incremented, with TTLs
60 and 3600. -/
def isAllowed (rl : RateLimiter) (idf : String) (t : ℚ) (c : RLCache) :
    (Bool × Option ℤ) × RLCache :=
  let currentMinute : ℤ := pyInt (t / 60)
  let currentHour : ℤ := pyInt (t / 3600)
  let minuteKey : RLKey := ⟨idf, Window.minute, currentMinute⟩
  let minuteCount := cacheGet c t minuteKey
  if rl.requests_per_minute ≤ minuteCount then
    ((false, some (60 - pyInt (pyMod t 60))), c)
  else
    let hourKey : RLKey := ⟨idf, Window.hour, currentHour⟩
    let hourCount := cacheGet c t hourKey
    if rl.requests_per_hour ≤ hourCount then
      ((false, some (3600 - pyInt (pyMod t 3600))), c)
    else
      ((true, none),
       cacheSet (cacheSet c minuteKey (minuteCount + 1) (t + 60))
         hourKey (hourCount + 1) (t + 3600))

/-- Runs a sequence of `is_allowed` calls for one identifier at the given
times, collecting the `(allowed, retry_after)` results. -/
def runIsAllowed (rl : RateLimiter) (idf : String) :
    List ℚ → RLCache → List (Bool × Option ℤ) × RLCache
  | [], c => ([], c)
  | t :: ts, c =>
      let r := isAllowed rl idf t c
      let rest := runIsAllowed rl idf ts r.2
      (r.1 :: rest.1, rest.2)

/-- The cache-state invariant after `i` allowed calls for `idf` inside minute
window `m`, starting from empty counters: either nothing has been stored yet
(`i = 0`), or both counters read `i` with TTL expiries at or beyond the end
of the window. -/
def RLInv (idf : String) (m : ℕ) (i : ℕ) (c : RLCache) : Prop :=
  (i = 0 ∧ c = emptyRLCache) ∨
  (∃ em eh : ℚ, 60 * ((m : ℚ) + 1) ≤ em ∧ 60 * ((m : ℚ) + 1) ≤ eh ∧
    c ⟨idf, Window.minute, (m : ℤ)⟩ = some (i, em) ∧
    c ⟨idf, Window.hour, ((m / 60 : ℕ) : ℤ)⟩ = some (i, eh))

/-! ## JSON documents and the total-count heuristic
(scrapers/property_scraper.py) -/
/-- A JSON value as produced by `json.loads`. Object fields are an ordered
association list; Python dict keys are unique, so lookups take the first
match. Only integer numbers are modelled (the count heuristics the claims
concern handle `int` and `str`; a float value fails the `isinstance` check
and the `int()` coercion alike, exactly as any non-convertible value does). -/
inductive Json where
  | null
  | bool (b : Bool)
  | num (n : ℤ)
  | str (s : String)
  | arr (items : List Json)
  | obj (fields : List (String × Json))

/-- Python dict lookup over the modelled field list. -/
def lookupField : List (String × Json) → String → Option Json
  | [], _ => none
  | (k, v) :: rest, key => if k = key then some v else lookupField rest key

/-- Python `int(s)` on a string: an optional minus sign followed by digits
parses, anything else raises `ValueError` (surrounding whitespace and a plus
sign are not modelled; no claim involves them). -/
def pyIntOfString (s : String) : Option ℤ :=
  match s.data with
  | [] => none
  | '-' :: rest =>
      if rest ≠ [] ∧ rest.all Char.isDigit then some (-(digitsVal rest : ℤ))
      else none
  | cs => if cs.all Char.isDigit then some ((digitsVal cs : ℤ)) else none

/-- Python `int(v)` applied to a JSON-decoded value: ints pass through,
booleans coerce to 0/1, numeric strings parse, and every other value raises
(`TypeError`/`ValueError`), modelled as `none`. -/
def jsonToInt : Json → Option ℤ
  | .num n => some n
  | .bool b => some (if b then 1 else 0)
  | .str s => pyIntOfString s
  | _ => none

/-- One key of the first loop of `find_total` (property_scraper.py, lines
147-154): if the key is present with an `int`/`str`-like value that converts
and exceeds 100, produce it; any failure just moves on. -/
def tryCountKeyOver100 (fields : List (String × Json)) (key : String) :
    Option ℤ :=
  match lookupField fields key with
  | some v =>
      match jsonToInt v with
      | some n => if 100 < n then some n else none
      | none => none
  | none => none

/-- One key of the `listResults` loop of `find_total` (property_scraper.py,
lines 157-163): if the key is present and converts, produce it — with no
threshold; a conversion failure is passed over. -/
def tryCountKey (fields : List (String × Json)) (key : String) : Option ℤ :=
  match lookupField fields key with
  | some v => jsonToInt v
  | none => none

/-- The first loop of `find_total` over the three known count keys, in the
source's order. -/
def checkKeys1 (fields : List (String × Json)) : Option ℤ :=
  match tryCountKeyOver100 fields "totalResultCount" with
  | some n => some n
  | none =>
      match tryCountKeyOver100 fields "resultCount" with
      | some n => some n
      | none => tryCountKeyOver100 fields "totalCount"

/-- The `listResults` loop of `find_total` over the same keys. -/
def checkKeys2 (fields : List (String × Json)) : Option ℤ :=
  match tryCountKey fields "totalResultCount" with
  | some n => some n
  | none =>
      match tryCountKey fields "resultCount" with
      | some n => some n
      | none => tryCountKey fields "totalCount"

mutual

/-- Embedding of the recursive helper `find_total`
(property_scraper.py, lines 144-173). On a dict: first try the three count
keys with the `> 100` sanity threshold; then, if the dict holds a
`listResults` key, return the first convertible count-key value with no
threshold; otherwise recurse over the values in order, returning the first
nonzero (truthy) result. On a list: recurse over items in order. Everything
else yields 0. -/
def findTotal : Json → ℤ
  | .obj fields =>
      match checkKeys1 fields with
      | some n => n
      | none =>
          match
            (if (lookupField fields "listResults").isSome then checkKeys2 fields
             else none) with
          | some n => n
          | none => findTotalValues fields
  | .arr items => findTotalItems items
  | _ => 0

/-- The `for v in obj.values()` recursion of `find_total`. -/
def findTotalValues : List (String × Json) → ℤ
  | [] => 0
  | (_, v) :: rest =>
      if findTotal v ≠ 0 then findTotal v else findTotalValues rest

/-- The `for item in obj` recursion of `find_total` on lists. -/
def findTotalItems : List Json → ℤ
  | [] => 0
  | v :: rest =>
      if findTotal v ≠ 0 then findTotal v else findTotalItems rest

end

mutual

/-- No object anywhere in the document carries a `listResults` key. -/
def noListResults : Json → Bool
  | .obj fields =>
      !(lookupField fields "listResults").isSome && noListResultsFields fields
  | .arr items => noListResultsItems items
  | _ => true

/-- Field-list form of `noListResults`. -/
def noListResultsFields : List (String × Json) → Bool
  | [] => true
  | (_, v) :: rest => noListResults v && noListResultsFields rest

/-- Item-list form of `noListResults`. -/
def noListResultsItems : List Json → Bool
  | [] => true
  | v :: rest => noListResults v && noListResultsItems rest

end

/-- The crafted document of the claim: a count key holding 45 at one nesting
level and 230 at a deeper level, with no `listResults` container. -/
def nested45then230 : Json :=
  .obj [("data", .obj [("resultCount", .num 45),
    ("inner", .obj [("resultCount", .num 230)])])]

/-- A document where the first count-key value exceeding 100 in traversal
order is 230, but an earlier dict holds `listResults` beside a count of 45. -/
def listResultsDoc : Json :=
  .obj [("a", .obj [("listResults", .arr []), ("resultCount", .num 45)]),
        ("b", .obj [("resultCount", .num 230)])]

/-! ## Result-page aggregation (scrapers/property_scraper.py and
scrapers/agent_scraper.py) -/
/-- The two exception outcomes of the agent-scraper operations:
`NotFoundException` for an empty result, `ScraperException` for anything
else. -/
inductive RevErr where
  | notFound
  | scraper
deriving DecidableEq

/-- Python dict `.get(key, default)` on a known field list. -/
def jget (fields : List (String × Json)) (key : String) (dflt : Json) : Json :=
  (lookupField fields key).getD dflt

/-- Python truthiness of a JSON-decoded value. -/
def jTruthy : Json → Bool
  | .null => false
  | .bool b => b
  | .num n => decide (n ≠ 0)
  | .str s => decide (s ≠ "")
  | .arr l => !l.isEmpty
  | .obj l => !l.isEmpty

/-- Calling a dict method (`.get`) on a non-dict raises, which the outer
handler turns into `ScraperException`. -/
def objFields : Json → Except RevErr (List (String × Json))
  | .obj f => .ok f
  | _ => .error .scraper

/-- Iterating a non-list where a review list is expected raises likewise. -/
def arrItems : Json → Except RevErr (List Json)
  | .arr l => .ok l
  | _ => .error .scraper

/-- Success condition of `parse_review` (scrapers/utils.py, lines 266-292):
the parse returns a record unless an exception occurs inside, which happens
exactly when the item is not a dict, or its `reviewer` field is present with
a non-dict value (then `reviewer.get` raises `AttributeError`, caught and
turned into `None`). The normalized record is represented by the raw item:
no claim depends on the individual normalized fields. -/
def parse_review_ok : Json → Bool
  | .obj fields =>
      match lookupField fields "reviewer" with
      | some (.obj _) => true
      | some _ => false
      | none => true
  | _ => false

/-- The script-data part of `get_agent_reviews` (agent_scraper.py, lines
637-665), entered when `script_data` is truthy: pick
`reviews` or `reviewsList`; when empty and `reviewsData` is present, take
its `reviews` and its `totalCount`/`reviewCount`; when the total is still
falsy, fall back to `displayUser.ratings.count` and then to
`graphQLData.professional.reviewRatings.count`; finally parse each item. -/
def scriptReviewsAndTotal (sd : Json) : Except RevErr (List Json × Json) := do
  let fields ← objFields sd
  let rd1 := jget fields "reviews" (.arr [])
  let rd2 := jget fields "reviewsList" (.arr [])
  let reviewsData0 := if jTruthy rd1 then rd1 else rd2
  let step2 ←
    if ¬ jTruthy reviewsData0 ∧ (lookupField fields "reviewsData").isSome then do
      let rdo ← objFields (jget fields "reviewsData" .null)
      let revs := jget rdo "reviews" (.arr [])
      let tc := jget rdo "totalCount" .null
      let rc := jget rdo "reviewCount" .null
      pure (revs, if jTruthy tc then tc else if jTruthy rc then rc else Json.num 0)
    else pure (reviewsData0, Json.num 0)
  let total2 ←
    if ¬ jTruthy step2.2 then do
      let du := jget fields "displayUser" (.obj [])
      let tdu ←
        if jTruthy du then do
          let duF ← objFields du
          let ratingsF ← objFields (jget duF "ratings" (.obj []))
          pure (jget ratingsF "count" (Json.num 0))
        else pure (Json.num 0)
      if ¬ jTruthy tdu then do
        let gqF ← objFields (jget fields "graphQLData" (.obj []))
        let profF ← objFields (jget gqF "professional" (.obj []))
        let rrF ← objFields (jget profF "reviewRatings" (.obj []))
        pure (jget rrF "count" (Json.num 0))
      else pure tdu
    else pure step2.2
  let items ← arrItems step2.1
  pure (items.filter parse_review_ok, total2)

/-- The result assembly of `get_agent_reviews` (agent_scraper.py, lines
629-696): reviews from the script data when it is truthy, else none; the
HTML review-card fallback when the list is still empty; `NotFoundException`
when it remains empty; and the returned `total_reviews` is whatever the
script data yielded — the observed review count is never backfilled. -/
def getAgentReviewsCore (scriptData : Option Json) (htmlReviews : List Json) :
    Except RevErr (List Json × Json) := do
  let fromScript ←
    match scriptData with
    | some sd =>
        if jTruthy sd then scriptReviewsAndTotal sd
        else pure (([] : List Json), Json.num 0)
    | none => pure (([] : List Json), Json.num 0)
  let reviews := if fromScript.1.isEmpty then htmlReviews else fromScript.1
  if reviews.isEmpty then Except.error RevErr.notFound
  else pure (reviews, fromScript.2)

/-- The result assembly of `_parse_search_results`
(property_scraper.py, lines 186-231 and 315-317). `data` is the JSON
document parsed from a script tag, `jsonProps` the property cards its
key-path loop produced (card parsing is abstracted to the assembled list),
and `fallbackProps` the cards of the Apollo/HTML fallbacks. The JSON path
returns as soon as cards exist, with the recursively discovered total when
positive (lines 189-191), backfilled by the observed count when still zero
(lines 220-223); the fallback return reports the observed count (line
317). -/
def parseSearchResultsAgg (data : Json) (jsonProps fallbackProps : List Json) :
    List Json × ℤ :=
  let total0 : ℤ := if 0 < findTotal data then findTotal data else 0
  if jsonProps.isEmpty then (fallbackProps, (fallbackProps.length : ℤ))
  else (jsonProps, if total0 = 0 then (jsonProps.length : ℤ) else total0)

/-- The result assembly of `get_agent_properties` (agent_scraper.py, lines
753-818): listings from the script data with the total found beside them
(default 0), the HTML-card fallback when empty, `NotFoundException` when
still empty, and a zero total backfilled with the observed count (lines
810-811). -/
def getAgentPropertiesAgg (scriptProps : List Json) (totalFound : ℤ)
    (htmlProps : List Json) : Except RevErr (List Json × ℤ) :=
  let properties := if scriptProps.isEmpty then htmlProps else scriptProps
  if properties.isEmpty then Except.error RevErr.notFound
  else
    Except.ok (properties,
      if totalFound = 0 then (properties.length : ℤ) else totalFound)

/-! ## Theorems -/
/-- C1: a fetch whose HTTP response has status 404 makes `_make_request` raise
`NotFoundException` immediately: no delay is slept, no proxy is marked failed
or successful, exactly one attempt is issued (zero retries, whatever further
outcomes the stream would have produced), and the result is `notFound`, not
the generic `scraperError` wrapper. -/
theorem makeRequest_http404_terminal (jitter : ℕ → ℚ) (maxRetries : ℕ)
    (useProxy : Bool) (rest : List Outcome) :
    makeRequest jitter maxRetries useProxy (Outcome.http404 :: rest) 0 =
      (FetchResult.notFound, ⟨[], 0, 0, 1⟩) := by
  simp [makeRequest, preSleep]

/-- C2: for the attempt sequence `[Blocked, Blocked, Success]` with
`max_retries = 3` and a proxy in use, `_make_request` returns success, marks
the proxy failed exactly twice and successful exactly once, and sleeps exactly
two jittered delays, each inside `[delay_min, delay_max]` whenever every
`random.uniform(delay_min, delay_max)` draw lies in those bounds. -/
theorem makeRequest_blocked_blocked_success (jitter : ℕ → ℚ) (dmin dmax : ℚ)
    (hj : ∀ i, dmin ≤ jitter i ∧ jitter i ≤ dmax) :
    (makeRequest jitter 3 true [.http403, .http403, .success] 0).1 = .ok ∧
    (makeRequest jitter 3 true [.http403, .http403, .success] 0).2.markedFailed = 2 ∧
    (makeRequest jitter 3 true [.http403, .http403, .success] 0).2.markedSuccess = 1 ∧
    (makeRequest jitter 3 true [.http403, .http403, .success] 0).2.sleeps.length = 2 ∧
    ∀ d ∈ (makeRequest jitter 3 true [.http403, .http403, .success] 0).2.sleeps,
      dmin ≤ d ∧ d ≤ dmax := by
  have hrun : makeRequest jitter 3 true [.http403, .http403, .success] 0 =
      (.ok, ⟨[jitter 1, jitter 2], 2, 1, 3⟩) := by
    simp [makeRequest, preSleep]
  refine ⟨by simp [hrun], by simp [hrun], by simp [hrun], by simp [hrun], ?_⟩
  rw [hrun]
  intro d hd
  simp only [List.mem_cons, List.not_mem_nil, or_false] at hd
  rcases hd with h | h <;> subst h <;> exact hj _

/-- Witness for C2 at concrete bounds `delay_min = 1`, `delay_max = 3` and the
constant draw 2. -/
theorem makeRequest_blocked_blocked_success_witness :
    (makeRequest (fun _ => 2) 3 true [.http403, .http403, .success] 0).1 = .ok ∧
    (makeRequest (fun _ => 2) 3 true [.http403, .http403, .success] 0).2.markedFailed = 2 ∧
    (makeRequest (fun _ => 2) 3 true [.http403, .http403, .success] 0).2.markedSuccess = 1 ∧
    (makeRequest (fun _ => 2) 3 true [.http403, .http403, .success] 0).2.sleeps.length = 2 ∧
    ∀ d ∈ (makeRequest (fun _ => 2) 3 true [.http403, .http403, .success] 0).2.sleeps,
      (1 : ℚ) ≤ d ∧ d ≤ 3 :=
  makeRequest_blocked_blocked_success (fun _ => 2) 1 3
    (fun _ => by norm_num)

/-- Ceiling of a rational division of naturals agrees with the integer formula
`(t + p - 1) / p` used in `build_paginated_response`. -/
theorem nat_ceil_div_eq (t p : ℕ) (hp : 1 ≤ p) :
    (t + p - 1) / p = ⌈(t : ℚ) / p⌉₊ := by
  rcases Nat.eq_zero_or_pos t with ht | ht
  · subst ht
    simp [Nat.div_eq_of_lt (by omega : p - 1 < p)]
  · have hp0 : 0 < p := hp
    apply le_antisymm
    · rw [Nat.div_le_iff_le_mul_add_pred hp0]
      have h1 : t ≤ p * ⌈(t : ℚ) / p⌉₊ := by
        have h2 : (t : ℚ) / p ≤ (⌈(t : ℚ) / p⌉₊ : ℚ) := Nat.le_ceil _
        have h3 : (t : ℚ) ≤ (⌈(t : ℚ) / p⌉₊ : ℚ) * p := by
          rw [← div_le_iff₀ (by positivity : (0 : ℚ) < p)]
          exact h2
        have h4 : (t : ℚ) ≤ ((p * ⌈(t : ℚ) / p⌉₊ : ℕ) : ℚ) := by
          push_cast
          linarith
        exact_mod_cast h4
      omega
    · rw [Nat.ceil_le]
      have hdm := Nat.div_add_mod (t + p - 1) p
      have hmlt : (t + p - 1) % p < p := Nat.mod_lt _ hp0
      have h1 : t ≤ p * ((t + p - 1) / p) := by omega
      rw [div_le_iff₀ (by positivity : (0 : ℚ) < p)]
      have h2 : (t : ℚ) ≤ (p : ℚ) * (((t + p - 1) / p : ℕ) : ℚ) := by
        exact_mod_cast h1
      linarith

/-- C6: for all `total_results ≥ 0`, `current_page ≥ 1`, `per_page ≥ 1`, the
pagination metadata satisfies `total_pages = max 1 ⌈total_results/per_page⌉`,
`has_next = (current_page < total_pages)`, `has_previous = (current_page > 1)`;
and at `total_results = 85`, `per_page = 40`: `total_pages = 3`, page 1 has
`has_next` and not `has_previous`, page 3 has `has_previous` and not
`has_next`. -/
theorem build_paginated_response_spec :
    (∀ (results : List ℕ) (total cp per : ℕ), 1 ≤ per → 1 ≤ cp →
      (build_paginated_response results total cp per).pagination.total_pages =
          max 1 ⌈(total : ℚ) / per⌉₊ ∧
      ((build_paginated_response results total cp per).pagination.has_next = true ↔
          cp < (build_paginated_response results total cp per).pagination.total_pages) ∧
      ((build_paginated_response results total cp per).pagination.has_previous = true ↔
          1 < cp)) ∧
    (build_paginated_response ([] : List ℕ) 85 1 40).pagination.total_pages = 3 ∧
    (build_paginated_response ([] : List ℕ) 85 1 40).pagination.has_next = true ∧
    (build_paginated_response ([] : List ℕ) 85 1 40).pagination.has_previous = false ∧
    (build_paginated_response ([] : List ℕ) 85 3 40).pagination.has_next = false ∧
    (build_paginated_response ([] : List ℕ) 85 3 40).pagination.has_previous = true := by
  refine ⟨?_, by decide, by decide, by decide, by decide, by decide⟩
  intro results total cp per hper hcp
  refine ⟨?_, by simp [build_paginated_response], by simp [build_paginated_response]⟩
  simp only [build_paginated_response, nat_ceil_div_eq total per hper]

/-- Witness for C6 at `total_results = 85`, `current_page = 2`,
`per_page = 40`. -/
theorem build_paginated_response_spec_witness :
    (build_paginated_response ([] : List ℕ) 85 2 40).pagination.total_pages =
        max 1 ⌈(85 : ℚ) / 40⌉₊ ∧
    ((build_paginated_response ([] : List ℕ) 85 2 40).pagination.has_next = true ↔
        2 < (build_paginated_response ([] : List ℕ) 85 2 40).pagination.total_pages) ∧
    ((build_paginated_response ([] : List ℕ) 85 2 40).pagination.has_previous = true ↔
        1 < 2) :=
  build_paginated_response_spec.1 [] 85 2 40 (by norm_num) (by norm_num)

/-- C7: `clean_price` maps `"$1,234,567"` to `1234567.0`, maps `None` and the
empty string to `None`, and maps every string containing neither a digit nor a
decimal point to `None`; it is a total function (exceptions inside are caught
and turned into `None`). -/
theorem clean_price_spec :
    clean_price (some "$1,234,567") = some (1234567 : ℚ) ∧
    clean_price none = none ∧
    clean_price (some "") = none ∧
    ∀ s : String, (∀ c ∈ s.data, ¬ c.isDigit ∧ c ≠ '.') →
      clean_price (some s) = none := by
  refine ⟨by decide, rfl, by decide, ?_⟩
  intro s hs
  have hfilter : s.data.filter isPriceChar = [] := by
    rw [List.filter_eq_nil_iff]
    intro c hc
    rcases hs c hc with ⟨h1, h2⟩
    simp [isPriceChar, h1, h2]
  by_cases hemp : s.data = []
  · simp [clean_price, hemp]
  · simp [clean_price, hemp, stripNonNumeric, hfilter]

/-- Witness for C7 at the digit-free, dot-free string `"abc"`. -/
theorem clean_price_spec_witness :
    clean_price (some "abc") = none ∧
    clean_price (some "$1,234,567") = some (1234567 : ℚ) :=
  ⟨clean_price_spec.2.2.2 "abc" (by decide), clean_price_spec.1⟩

/-- With nothing blacklisted, one `get_proxy` call returns the endpoint at
`current_index % N` and advances the cursor by one modulo the pool size. -/
theorem getProxy_no_blacklist (proxies : List String) (hne : proxies ≠ [])
    (c : ℕ) (bx t : ℚ) :
    getProxy proxies ⟨c, [], bx⟩ t =
      (proxies[c % proxies.length]?,
       ⟨(c + 1) % proxies.length, [], bx⟩) := by
  simp [getProxy, availableProxies, effBlacklist, hne]

/-- With nothing blacklisted, a run of `get_proxy` calls walks the pool in
round-robin order: the `j`-th call returns `proxies[(c + j) % N]`. -/
theorem runGetProxies_outputs (proxies : List String) (hne : proxies ≠ []) :
    ∀ (ts : List ℚ) (c : ℕ) (bx : ℚ),
      (runGetProxies proxies ts ⟨c, [], bx⟩).1 =
        (List.range ts.length).map
          (fun j => proxies[(c + j) % proxies.length]?) := by
  intro ts
  induction ts with
  | nil => intro c bx; simp [runGetProxies]
  | cons t ts ih =>
      intro c bx
      rw [runGetProxies]
      rw [getProxy_no_blacklist proxies hne c bx t]
      simp only [List.length_cons, List.range_succ_eq_map, List.map_cons,
        Nat.add_zero, List.map_map]
      refine congrArg₂ _ rfl ?_
      rw [ih ((c + 1) % proxies.length) bx]
      apply List.map_congr_left
      intro j hj
      simp only [Function.comp_apply]
      rw [Nat.mod_add_mod]
      have hidx : c + 1 + j = c + Nat.succ j := by omega
      rw [hidx]

/-- C4: for every duplicate-free pool of size N ≥ 1 with no endpoint
blacklisted, any N+1 consecutive `get_proxy()` calls — starting from an
arbitrary cursor value — return exactly one endpoint twice and every other
endpoint exactly once: the round-robin cursor advances by one mod the pool
size per call and wraps correctly. -/
theorem getProxy_roundrobin_wraps (proxies : List String) (hne : proxies ≠ [])
    (hnd : proxies.Nodup) (c : ℕ) (bx : ℚ) (ts : List ℚ)
    (hlen : ts.length = proxies.length + 1) :
    ((runGetProxies proxies ts ⟨c, [], bx⟩).1.filterMap id).length =
        proxies.length + 1 ∧
    ∃ dup, dup ∈ proxies ∧
      ((runGetProxies proxies ts ⟨c, [], bx⟩).1.filterMap id).count dup = 2 ∧
      ∀ p ∈ proxies, p ≠ dup →
        ((runGetProxies proxies ts ⟨c, [], bx⟩).1.filterMap id).count p = 1 := by
  have hN : 0 < proxies.length := List.length_pos.2 hne
  have houts := runGetProxies_outputs proxies hne ts c bx
  rw [hlen] at houts
  have hvals : (List.range (proxies.length + 1)).map
        (fun j => proxies[(c + j) % proxies.length]?) =
      ((List.range (proxies.length + 1)).map
        (fun j => proxies.get ⟨(c + j) % proxies.length, Nat.mod_lt _ hN⟩)).map
        some := by
    rw [List.map_map]
    apply List.map_congr_left
    intro j hj
    simp [List.getElem?_eq_getElem (Nat.mod_lt (c + j) hN)]
  have hfm : (runGetProxies proxies ts ⟨c, [], bx⟩).1.filterMap id =
      (List.range (proxies.length + 1)).map
        (fun j => proxies.get ⟨(c + j) % proxies.length, Nat.mod_lt _ hN⟩) := by
    rw [houts, hvals]
    simp
  have hA : (List.range proxies.length).map
        (fun j => proxies.get ⟨(c + j) % proxies.length, Nat.mod_lt _ hN⟩) =
      proxies.rotate c := by
    apply List.ext_get
    · simp
    · intro i h1 h2
      simp only [List.get_map, List.get_range]
      rw [List.get_rotate]
      apply congrArg
      apply Fin.ext
      simp [Nat.add_comm]
  have hgN : proxies.get ⟨(c + proxies.length) % proxies.length, Nat.mod_lt _ hN⟩ =
      proxies.get ⟨c % proxies.length, Nat.mod_lt _ hN⟩ := by
    apply congrArg
    apply Fin.ext
    simp [Nat.add_mod_right]
  have hcount : ∀ p : String,
      ((runGetProxies proxies ts ⟨c, [], bx⟩).1.filterMap id).count p =
        proxies.count p +
          if p = proxies.get ⟨c % proxies.length, Nat.mod_lt _ hN⟩ then 1 else 0 := by
    intro p
    rw [hfm, List.range_succ, List.map_append, List.count_append, hA]
    rw [(List.rotate_perm proxies c).count_eq p]
    simp only [List.map_cons, List.map_nil]
    rw [hgN]
    rcases eq_or_ne p (proxies.get ⟨c % proxies.length, Nat.mod_lt _ hN⟩) with hpy | hpy
    · simp [hpy]
    · have hb : c % proxies.length < proxies.length := Nat.mod_lt _ hN
      have hpy2 : p ≠ proxies[c % proxies.length] := by
        simpa [List.get_eq_getElem] using hpy
      simp [List.count_cons, hpy2]
  have hlenv : ((runGetProxies proxies ts ⟨c, [], bx⟩).1.filterMap id).length =
      proxies.length + 1 := by
    rw [hfm, List.length_map, List.length_range]
  refine ⟨hlenv, proxies.get ⟨c % proxies.length, Nat.mod_lt _ hN⟩,
    List.get_mem _ _ _, ?_, ?_⟩
  · rw [hcount]
    rw [List.count_eq_one_of_mem hnd (List.get_mem _ _ _), if_pos rfl]
  · intro p hp hpne
    rw [hcount]
    rw [List.count_eq_one_of_mem hnd hp, if_neg hpne]

/-- A `get_proxy` call never returns a blacklisted endpoint as long as some
pool member is outside the effective blacklist (so the all-blacklisted
fallback is not taken). -/
theorem getProxy_skips_blacklisted (proxies : List String) (s : ProxyState)
    (t : ℚ) (e : String) (he : e ∈ effBlacklist s t)
    (p : String) (hp : p ∈ proxies) (hpbl : p ∉ effBlacklist s t) :
    (getProxy proxies s t).1 ≠ some e := by
  have hne : proxies ≠ [] := List.ne_nil_of_mem hp
  have hpf : p ∈ proxies.filter (fun q => decide (q ∉ effBlacklist s t)) :=
    List.mem_filter.2 ⟨hp, by simpa using hpbl⟩
  have hane : proxies.filter (fun q => decide (q ∉ effBlacklist s t)) ≠ [] :=
    List.ne_nil_of_mem hpf
  have havail : availableProxies proxies s t =
      proxies.filter (fun q => decide (q ∉ effBlacklist s t)) := by
    rw [availableProxies, if_neg hane]
  intro hsome
  rw [getProxy, if_neg hne] at hsome
  have hmem : e ∈ availableProxies proxies s t := List.getElem?_mem hsome
  rw [havail] at hmem
  have hnotbl := (List.mem_filter.1 hmem).2
  simp only [decide_eq_true_eq] at hnotbl
  exact hnotbl he

/-- The `get_proxy` state update never touches the blacklist entry. -/
theorem getProxy_preserves_blacklist (proxies : List String) (s : ProxyState)
    (t : ℚ) :
    (getProxy proxies s t).2.blSet = s.blSet ∧
    (getProxy proxies s t).2.blExpiry = s.blExpiry := by
  rw [getProxy]
  split
  · exact ⟨rfl, rfl⟩
  · exact ⟨rfl, rfl⟩

/-- Any single operation inside the window `[t0, t0 + 300)` other than
`mark_proxy_success(e)` keeps `e` blacklisted with an expiry not before
`t0 + 300`: `get_proxy` leaves the blacklist alone, `mark_proxy_failed(p)`
only grows the still-live set and pushes the shared expiry later, and
`mark_proxy_success(p)` with `p ≠ e` removes only `p`. -/
theorem applyProxyOp_preserves (proxies : List String) (e : String) (t0 : ℚ)
    (o : ProxyOp × ℚ) (s : ProxyState)
    (hI : BlacklistedThrough e (t0 + BLACKLIST_DURATION) s)
    (ht0 : t0 ≤ o.2) (ht1 : o.2 < t0 + BLACKLIST_DURATION)
    (hop : o.1 ≠ ProxyOp.succ e) :
    BlacklistedThrough e (t0 + BLACKLIST_DURATION) (applyProxyOp proxies s o) := by
  obtain ⟨hmem, hexp⟩ := hI
  obtain ⟨op, t⟩ := o
  have heff : effBlacklist s t = s.blSet := if_pos (lt_of_lt_of_le ht1 hexp)
  cases op with
  | get =>
      obtain ⟨h1, h2⟩ := getProxy_preserves_blacklist proxies s t
      exact ⟨h1 ▸ hmem, h2 ▸ hexp⟩
  | fail p =>
      refine ⟨?_, ?_⟩
      · show e ∈ (effBlacklist s t).insert p
        rw [heff]
        exact List.mem_insert_of_mem hmem
      · show t0 + BLACKLIST_DURATION ≤ t + BLACKLIST_DURATION
        linarith
  | succ p =>
      have hpe : e ≠ p := by
        intro h
        exact hop (by rw [h])
      rw [applyProxyOp, markProxySuccess]
      split
      · refine ⟨?_, ?_⟩
        · show e ∈ (effBlacklist s t).erase p
          rw [heff]
          exact (List.mem_erase_of_ne hpe).2 hmem
        · show t0 + BLACKLIST_DURATION ≤ t + BLACKLIST_DURATION
          linarith
      · exact ⟨hmem, hexp⟩

/-- The invariant of `applyProxyOp_preserves` carries through any operation
sequence whose times stay inside the window and which never calls
`mark_proxy_success(e)`. -/
theorem runProxyOps_preserves (proxies : List String) (e : String) (t0 : ℚ) :
    ∀ (ops : List (ProxyOp × ℚ)) (s : ProxyState),
      BlacklistedThrough e (t0 + BLACKLIST_DURATION) s →
      (∀ o ∈ ops, t0 ≤ o.2 ∧ o.2 < t0 + BLACKLIST_DURATION ∧
        o.1 ≠ ProxyOp.succ e) →
      BlacklistedThrough e (t0 + BLACKLIST_DURATION) (runProxyOps proxies ops s) := by
  intro ops
  induction ops with
  | nil => intro s hI hops; exact hI
  | cons o ops ih =>
      intro s hI hops
      rw [runProxyOps, List.foldl_cons]
      obtain ⟨h1, h2, h3⟩ := hops o (List.mem_cons_self o ops)
      exact ih (applyProxyOp proxies s o)
        (applyProxyOp_preserves proxies e t0 o s hI h1 h2 h3)
        (fun q hq => hops q (List.mem_cons_of_mem o hq))

/-- Once the blacklist cache entry has expired, `get_proxy` sees an empty
blacklist and every pool member is eligible: some cursor position returns it. -/
theorem getProxy_eligible_after_expiry (proxies : List String) (s : ProxyState)
    (t : ℚ) (hexp : s.blExpiry ≤ t) (e : String) (he : e ∈ proxies) :
    ∃ c : ℕ, (getProxy proxies { s with currentIndex := c } t).1 = some e := by
  have hne : proxies ≠ [] := List.ne_nil_of_mem he
  obtain ⟨i, hie⟩ := List.mem_iff_get.1 he
  refine ⟨i, ?_⟩
  have heff : effBlacklist { s with currentIndex := (i : ℕ) } t = [] :=
    if_neg (not_lt.2 hexp)
  have havail : availableProxies proxies { s with currentIndex := (i : ℕ) } t =
      proxies := by
    rw [availableProxies]
    simp [heff]
  rw [getProxy, if_neg hne]
  show (availableProxies proxies { s with currentIndex := (i : ℕ) } t)[(i : ℕ) %
      (availableProxies proxies { s with currentIndex := (i : ℕ) } t).length]? =
    some e
  rw [havail, Nat.mod_eq_of_lt i.isLt, List.getElem?_eq_getElem i.isLt,
    ← List.get_eq_getElem, hie]

/-- C5 (amended): after `mark_failed(e)` at time `t0`, for any interleaving of
operations at times inside the 300-second window that does not call
`mark_success(e)`, the endpoint `e` is never returned by a `get_proxy()` call
made inside the window while some pool member is outside the effective
blacklist; and once the shared blacklist entry's expiry — refreshed to
`t + 300` by every blacklist mutation at time `t`, not fixed at `t0 + 300` —
has passed, `e` is eligible to be returned again (some cursor position
returns it). -/
theorem mark_failed_window_exclusion (proxies : List String) (e : String)
    (t0 : ℚ) (s0 : ProxyState) (ops : List (ProxyOp × ℚ))
    (hops : ∀ o ∈ ops, t0 ≤ o.2 ∧ o.2 < t0 + BLACKLIST_DURATION ∧
      o.1 ≠ ProxyOp.succ e) :
    (∀ t, t0 ≤ t → t < t0 + BLACKLIST_DURATION →
      ∀ p ∈ proxies,
        p ∉ effBlacklist (runProxyOps proxies ops (markProxyFailed s0 e t0)) t →
        (getProxy proxies (runProxyOps proxies ops (markProxyFailed s0 e t0)) t).1 ≠
          some e) ∧
    (∀ t, (runProxyOps proxies ops (markProxyFailed s0 e t0)).blExpiry ≤ t →
      e ∈ proxies →
      ∃ c : ℕ,
        (getProxy proxies
          { runProxyOps proxies ops (markProxyFailed s0 e t0) with
            currentIndex := c } t).1 = some e) := by
  have hinit : BlacklistedThrough e (t0 + BLACKLIST_DURATION)
      (markProxyFailed s0 e t0) :=
    ⟨List.mem_insert_self e _, le_refl _⟩
  have hrun := runProxyOps_preserves proxies e t0 ops
    (markProxyFailed s0 e t0) hinit hops
  constructor
  · intro t ht0 ht1 p hp hpbl
    have heffmem : e ∈ effBlacklist
        (runProxyOps proxies ops (markProxyFailed s0 e t0)) t := by
      rw [effBlacklist, if_pos (lt_of_lt_of_le ht1 hrun.2)]
      exact hrun.1
    exact getProxy_skips_blacklisted proxies _ t e heffmem p hp hpbl
  · intro t hexp he
    exact getProxy_eligible_after_expiry proxies _ t hexp e he

/-- Witness for C5 (amended): pool `["a", "b"]`, `mark_failed("a")` at time 0
with no interleaved operations. -/
theorem mark_failed_window_exclusion_witness :
    (∀ t, (0 : ℚ) ≤ t → t < 0 + BLACKLIST_DURATION →
      ∀ p ∈ ["a", "b"],
        p ∉ effBlacklist (runProxyOps ["a", "b"] [] (markProxyFailed ⟨0, [], 0⟩ "a" 0)) t →
        (getProxy ["a", "b"] (runProxyOps ["a", "b"] [] (markProxyFailed ⟨0, [], 0⟩ "a" 0)) t).1 ≠
          some "a") ∧
    (∀ t, (runProxyOps ["a", "b"] [] (markProxyFailed ⟨0, [], 0⟩ "a" 0)).blExpiry ≤ t →
      "a" ∈ ["a", "b"] →
      ∃ c : ℕ,
        (getProxy ["a", "b"]
          { runProxyOps ["a", "b"] [] (markProxyFailed ⟨0, [], 0⟩ "a" 0) with
            currentIndex := c } t).1 = some "a") :=
  mark_failed_window_exclusion ["a", "b"] "a" 0 ⟨0, [], 0⟩ []
    (fun o ho => absurd ho (List.not_mem_nil o))

/-- C5 counterexample: the claim as stated fails on two concrete traces.
First, with pool `["e1", "e2"]` and `"e2"` not blacklisted when
`mark_failed("e1")` runs at time 0, an interleaved `mark_failed("e2")` at
time 10 blacklists the whole pool, so the `get_proxy` call at time 20 —
inside the 300-second window — falls back to the full pool and returns
`"e1"`. Second, with pool `["e1", "e2", "e3"]`, `mark_failed("e1")` at time
0 followed by `mark_failed("e2")` at time 100 and `mark_success("e2")` at
time 150 refreshes the shared cache TTL, so at time 301 — after the claimed
window has elapsed — `"e1"` is still effectively blacklisted and `get_proxy`
keeps skipping it from either cursor parity. -/
theorem mark_failed_window_exclusion_cex :
    (getProxy ["e1", "e2"]
      (markProxyFailed (markProxyFailed ⟨0, [], 0⟩ "e1" 0) "e2" 10) 20).1 =
        some "e1" ∧
    effBlacklist
      (markProxySuccess
        (markProxyFailed (markProxyFailed ⟨0, [], 0⟩ "e1" 0) "e2" 100) "e2" 150)
      301 = ["e1"] ∧
    (getProxy ["e1", "e2", "e3"]
      (markProxySuccess
        (markProxyFailed (markProxyFailed ⟨0, [], 0⟩ "e1" 0) "e2" 100) "e2" 150)
      301).1 = some "e2" ∧
    (getProxy ["e1", "e2", "e3"]
      { markProxySuccess
          (markProxyFailed (markProxyFailed ⟨0, [], 0⟩ "e1" 0) "e2" 100) "e2" 150 with
        currentIndex := 1 } 301).1 = some "e3" := by
  have a12 : ("e1" : String) ≠ "e2" := by decide
  have a21 : ("e2" : String) ≠ "e1" := by decide
  have a13 : ("e1" : String) ≠ "e3" := by decide
  have a31 : ("e3" : String) ≠ "e1" := by decide
  have a23 : ("e2" : String) ≠ "e3" := by decide
  have a32 : ("e3" : String) ≠ "e2" := by decide
  refine ⟨?_, ?_, ?_, ?_⟩ <;>
    norm_num [getProxy, availableProxies, effBlacklist, markProxyFailed,
      markProxySuccess, BLACKLIST_DURATION, List.insert, List.erase,
      List.cons_ne_nil, a12, a21, a13, a31, a23, a32]

/-- Witness for C4: the pool `["p1", "p2"]` (N = 2) with three consecutive
calls from cursor 0. -/
theorem getProxy_roundrobin_wraps_witness :
    ((runGetProxies ["p1", "p2"] [0, 0, 0] ⟨0, [], 0⟩).1.filterMap id).length = 3 ∧
    ∃ dup, dup ∈ ["p1", "p2"] ∧
      ((runGetProxies ["p1", "p2"] [0, 0, 0] ⟨0, [], 0⟩).1.filterMap id).count dup = 2 ∧
      ∀ p ∈ ["p1", "p2"], p ≠ dup →
        ((runGetProxies ["p1", "p2"] [0, 0, 0] ⟨0, [], 0⟩).1.filterMap id).count p = 1 :=
  getProxy_roundrobin_wraps ["p1", "p2"] (by decide) (by decide) 0 0 [0, 0, 0] rfl

/-- At any instant of the minute window `[60m, 60(m+1))`, the minute index
`int(t // 60)` is `m`. -/
theorem pyInt_div_60 (m : ℕ) (t : ℚ) (h0 : 60 * (m : ℚ) ≤ t)
    (h1 : t < 60 * ((m : ℚ) + 1)) : pyInt (t / 60) = (m : ℤ) := by
  have ht0 : (0 : ℚ) ≤ t := le_trans (by positivity) h0
  rw [pyInt, if_pos (by positivity : (0 : ℚ) ≤ t / 60)]
  rw [Int.floor_eq_iff]
  constructor
  · rw [le_div_iff₀ (by norm_num : (0 : ℚ) < 60)]
    push_cast
    linarith
  · rw [div_lt_iff₀ (by norm_num : (0 : ℚ) < 60)]
    push_cast
    linarith

/-- At any instant of the minute window `[60m, 60(m+1))`, the hour index
`int(t // 3600)` is `m / 60`. -/
theorem pyInt_div_3600 (m : ℕ) (t : ℚ) (h0 : 60 * (m : ℚ) ≤ t)
    (h1 : t < 60 * ((m : ℚ) + 1)) : pyInt (t / 3600) = ((m / 60 : ℕ) : ℤ) := by
  have ht0 : (0 : ℚ) ≤ t := le_trans (by positivity) h0
  have hq := Nat.div_add_mod m 60
  have hr : m % 60 < 60 := Nat.mod_lt _ (by norm_num)
  have hqQ : ((60 * (m / 60) + m % 60 : ℕ) : ℚ) = (m : ℚ) := by exact_mod_cast hq
  push_cast at hqQ
  have hrQ : ((m % 60 : ℕ) : ℚ) ≤ 59 := by
    have : m % 60 ≤ 59 := by omega
    exact_mod_cast this
  have hr0 : (0 : ℚ) ≤ ((m % 60 : ℕ) : ℚ) := by positivity
  rw [pyInt, if_pos (by positivity : (0 : ℚ) ≤ t / 3600)]
  rw [Int.floor_eq_iff]
  constructor
  · rw [le_div_iff₀ (by norm_num : (0 : ℚ) < 3600)]
    rw [Int.cast_natCast]
    linarith
  · rw [div_lt_iff₀ (by norm_num : (0 : ℚ) < 3600)]
    rw [Int.cast_natCast]
    linarith

/-- At any instant of the minute window, the denial answer
`60 - int(t % 60)` is strictly positive and at most 60. -/
theorem retry_after_bounds (m : ℕ) (t : ℚ) (h0 : 60 * (m : ℚ) ≤ t)
    (h1 : t < 60 * ((m : ℚ) + 1)) :
    0 < 60 - pyInt (pyMod t 60) ∧ 60 - pyInt (pyMod t 60) ≤ 60 := by
  have ht0 : (0 : ℚ) ≤ t := le_trans (by positivity) h0
  have hfl : ⌊t / 60⌋ = (m : ℤ) := by
    have := pyInt_div_60 m t h0 h1
    rwa [pyInt, if_pos (by positivity : (0 : ℚ) ≤ t / 60)] at this
  have hmod : pyMod t 60 = t - 60 * (m : ℚ) := by
    rw [pyMod, hfl]
    push_cast
    ring
  have hlo : (0 : ℚ) ≤ pyMod t 60 := by rw [hmod]; linarith
  have hhi : pyMod t 60 < 60 := by rw [hmod]; linarith
  have hp : pyInt (pyMod t 60) = ⌊pyMod t 60⌋ := if_pos hlo
  have hf0 : 0 ≤ ⌊pyMod t 60⌋ := Int.floor_nonneg.2 hlo
  have hf1 : ⌊pyMod t 60⌋ < 60 := Int.floor_lt.2 (by exact_mod_cast hhi)
  rw [hp]
  omega

/-- Under the invariant, both counters read `i` at any instant of the
window. -/
theorem RLInv_get (idf : String) (m : ℕ) (i : ℕ) (c : RLCache)
    (hI : RLInv idf m i c) (t : ℚ) (h1 : t < 60 * ((m : ℚ) + 1)) :
    cacheGet c t ⟨idf, Window.minute, (m : ℤ)⟩ = i ∧
    cacheGet c t ⟨idf, Window.hour, ((m / 60 : ℕ) : ℤ)⟩ = i := by
  rcases hI with ⟨hi0, hc⟩ | ⟨em, eh, hem, heh, hM, hH⟩
  · subst hc; subst hi0; exact ⟨rfl, rfl⟩
  · constructor
    · rw [cacheGet, hM]
      show (if t < em then i else 0) = i
      rw [if_pos (lt_of_lt_of_le h1 hem)]
    · rw [cacheGet, hH]
      show (if t < eh then i else 0) = i
      rw [if_pos (lt_of_lt_of_le h1 heh)]

/-- The minute key and the hour key are always distinct. -/
theorem minuteKey_ne_hourKey (idf : String) (a b : ℤ) :
    (⟨idf, Window.minute, a⟩ : RLKey) ≠ ⟨idf, Window.hour, b⟩ := by
  intro h
  exact absurd (congrArg RLKey.window h) (by simp)

/-- One allowed step: while both counters are strictly below their ceilings,
`is_allowed` returns `(true, none)` and stores both counters incremented with
TTLs 60 and 3600. -/
theorem isAllowed_step (k H : ℕ) (idf : String) (m i : ℕ) (hik : i < k)
    (hiH : i < H) (t : ℚ) (h0 : 60 * (m : ℚ) ≤ t)
    (h1 : t < 60 * ((m : ℚ) + 1)) (c : RLCache)
    (hMK : cacheGet c t ⟨idf, Window.minute, (m : ℤ)⟩ = i)
    (hHK : cacheGet c t ⟨idf, Window.hour, ((m / 60 : ℕ) : ℤ)⟩ = i) :
    isAllowed ⟨k, H⟩ idf t c =
      ((true, none),
       cacheSet (cacheSet c ⟨idf, Window.minute, (m : ℤ)⟩ (i + 1) (t + 60))
         ⟨idf, Window.hour, ((m / 60 : ℕ) : ℤ)⟩ (i + 1) (t + 3600)) := by
  rw [isAllowed]
  simp only [pyInt_div_60 m t h0 h1, pyInt_div_3600 m t h0 h1, hMK, hHK]
  rw [if_neg (by omega : ¬ k ≤ i), if_neg (by omega : ¬ H ≤ i)]

/-- One allowed step preserves the invariant with the count incremented. -/
theorem isAllowed_step_inv (k H : ℕ) (idf : String) (m i : ℕ) (hik : i < k)
    (hiH : i < H) (t : ℚ) (h0 : 60 * (m : ℚ) ≤ t)
    (h1 : t < 60 * ((m : ℚ) + 1)) (c : RLCache) (hI : RLInv idf m i c) :
    isAllowed ⟨k, H⟩ idf t c =
      ((true, none), (isAllowed ⟨k, H⟩ idf t c).2) ∧
    RLInv idf m (i + 1) (isAllowed ⟨k, H⟩ idf t c).2 := by
  obtain ⟨hMK, hHK⟩ := RLInv_get idf m i c hI t h1
  have hstep := isAllowed_step k H idf m i hik hiH t h0 h1 c hMK hHK
  rw [hstep]
  refine ⟨rfl, Or.inr ⟨t + 60, t + 3600, by linarith, by linarith, ?_, ?_⟩⟩
  · simp [cacheSet, minuteKey_ne_hourKey idf (m : ℤ) ((m / 60 : ℕ) : ℤ)]
  · simp [cacheSet]

/-- A run of allowed calls: while the budget lasts, every call returns
`(true, none)` and the invariant advances with each call. -/
theorem runIsAllowed_all_allowed (k H : ℕ) (idf : String) (m : ℕ) :
    ∀ (ts : List ℚ) (i : ℕ) (c : RLCache),
      (∀ t ∈ ts, 60 * (m : ℚ) ≤ t ∧ t < 60 * ((m : ℚ) + 1)) →
      i + ts.length ≤ k → k ≤ H →
      RLInv idf m i c →
      (runIsAllowed ⟨k, H⟩ idf ts c).1 =
        List.replicate ts.length (true, none) ∧
      RLInv idf m (i + ts.length) (runIsAllowed ⟨k, H⟩ idf ts c).2 := by
  intro ts
  induction ts with
  | nil => intro i c hwin hbud hkH hI; exact ⟨rfl, hI⟩
  | cons t ts ih =>
      intro i c hwin hbud hkH hI
      obtain ⟨h0, h1⟩ := hwin t (List.mem_cons_self t ts)
      have hik : i < k := by
        have := hbud
        simp only [List.length_cons] at this
        omega
      have hiH : i < H := lt_of_lt_of_le hik hkH
      obtain ⟨hout, hInext⟩ :=
        isAllowed_step_inv k H idf m i hik hiH t h0 h1 c hI
      have hrest := ih (i + 1) (isAllowed ⟨k, H⟩ idf t c).2
        (fun u hu => hwin u (List.mem_cons_of_mem t hu))
        (by simp only [List.length_cons] at hbud; omega) hkH hInext
      rw [runIsAllowed]
      constructor
      · simp only [List.length_cons, List.replicate_succ]
        rw [hout]
        exact congrArg₂ _ rfl hrest.1
      · have : i + (ts.length + 1) = i + 1 + ts.length := by omega
        rw [List.length_cons, this]
        exact hrest.2

/-- The denying step: once the minute counter has reached the ceiling,
`is_allowed` denies with `60 - int(t % 60)` and leaves the cache unchanged. -/
theorem isAllowed_denied_at_ceiling (k H : ℕ) (idf : String) (m : ℕ) (t : ℚ)
    (h0 : 60 * (m : ℚ) ≤ t) (h1 : t < 60 * ((m : ℚ) + 1)) (c : RLCache)
    (hMK : cacheGet c t ⟨idf, Window.minute, (m : ℤ)⟩ = k) :
    isAllowed ⟨k, H⟩ idf t c = ((false, some (60 - pyInt (pyMod t 60))), c) := by
  rw [isAllowed]
  simp only [pyInt_div_60 m t h0 h1, hMK]
  rw [if_pos (le_refl k)]

/-- Runs over concatenated time lists compose. -/
theorem runIsAllowed_append (rl : RateLimiter) (idf : String) :
    ∀ (l1 l2 : List ℚ) (c : RLCache),
      runIsAllowed rl idf (l1 ++ l2) c =
        ((runIsAllowed rl idf l1 c).1 ++
           (runIsAllowed rl idf l2 (runIsAllowed rl idf l1 c).2).1,
         (runIsAllowed rl idf l2 (runIsAllowed rl idf l1 c).2).2) := by
  intro l1
  induction l1 with
  | nil => intro l2 c; rfl
  | cons t l1 ih =>
      intro l2 c
      simp only [List.cons_append, runIsAllowed, List.append_eq]
      rw [ih]

/-- C3 (amended): for every identifier and minute ceiling `k` not exceeding
the hour ceiling, starting from empty counters, for any `k + 1` call times
inside one minute window the first `k` calls return `(true, none)`, the
`(k+1)`-th returns `(false, r)` with `0 < r ≤ 60`, and after the first `i`
allowed calls both the minute and the hour counter read exactly `i`. -/
theorem isAllowed_minute_window_spec (k H : ℕ) (hkH : k ≤ H) (idf : String)
    (m : ℕ) (ts : List ℚ) (hlen : ts.length = k + 1)
    (hwin : ∀ t ∈ ts, 60 * (m : ℚ) ≤ t ∧ t < 60 * ((m : ℚ) + 1)) :
    (∃ r : ℤ, (runIsAllowed ⟨k, H⟩ idf ts emptyRLCache).1 =
        List.replicate k (true, none) ++ [(false, some r)] ∧ 0 < r ∧ r ≤ 60) ∧
    ∀ i, i ≤ k → ∀ t, 60 * (m : ℚ) ≤ t → t < 60 * ((m : ℚ) + 1) →
      cacheGet (runIsAllowed ⟨k, H⟩ idf (ts.take i) emptyRLCache).2 t
          ⟨idf, Window.minute, (m : ℤ)⟩ = i ∧
      cacheGet (runIsAllowed ⟨k, H⟩ idf (ts.take i) emptyRLCache).2 t
          ⟨idf, Window.hour, ((m / 60 : ℕ) : ℤ)⟩ = i := by
  have hsplit : ts.take k ++ ts.drop k = ts := List.take_append_drop k ts
  have htk : (ts.take k).length = k := by
    rw [List.length_take, hlen]
    omega
  have hdk : (ts.drop k).length = 1 := by
    rw [List.length_drop, hlen]
    omega
  obtain ⟨tl, htl⟩ : ∃ tl, ts.drop k = [tl] := by
    cases hcase : ts.drop k with
    | nil => rw [hcase] at hdk; simp at hdk
    | cons x r =>
        cases r with
        | nil => exact ⟨x, rfl⟩
        | cons y r2 => rw [hcase] at hdk; simp at hdk
  have hwtake : ∀ t ∈ ts.take k, 60 * (m : ℚ) ≤ t ∧ t < 60 * ((m : ℚ) + 1) :=
    fun t ht => hwin t (List.take_subset k ts ht)
  have hAll := runIsAllowed_all_allowed k H idf m (ts.take k) 0 emptyRLCache
    hwtake (by rw [htk]; omega) hkH (Or.inl ⟨rfl, rfl⟩)
  have htlmem : tl ∈ ts := by
    apply List.drop_subset k ts
    rw [htl]
    exact List.mem_singleton_self tl
  obtain ⟨htl0, htl1⟩ := hwin tl htlmem
  have hAllInv : RLInv idf m k (runIsAllowed ⟨k, H⟩ idf (ts.take k) emptyRLCache).2 := by
    have := hAll.2
    rwa [htk, Nat.zero_add] at this
  have hmid := RLInv_get idf m k _ hAllInv tl htl1
  have hden := isAllowed_denied_at_ceiling k H idf m tl htl0 htl1 _ hmid.1
  constructor
  · refine ⟨60 - pyInt (pyMod tl 60), ?_, ?_, ?_⟩
    · conv_lhs => rw [← hsplit]
      rw [runIsAllowed_append, htl]
      rw [hAll.1, htk]
      simp only [runIsAllowed, hden]
    · exact (retry_after_bounds m tl htl0 htl1).1
    · exact (retry_after_bounds m tl htl0 htl1).2
  · intro i hik t h0 h1
    have hwt : ∀ u ∈ ts.take i, 60 * (m : ℚ) ≤ u ∧ u < 60 * ((m : ℚ) + 1) :=
      fun u hu => hwin u (List.take_subset i ts hu)
    have hlen_i : (ts.take i).length = i := by
      rw [List.length_take, hlen]
      omega
    have hrun := runIsAllowed_all_allowed k H idf m (ts.take i) 0 emptyRLCache
      hwt (by rw [hlen_i]; omega) hkH (Or.inl ⟨rfl, rfl⟩)
    have hInv : RLInv idf m i (runIsAllowed ⟨k, H⟩ idf (ts.take i) emptyRLCache).2 := by
      have := hrun.2
      rwa [hlen_i, Nat.zero_add] at this
    exact RLInv_get idf m i _ hInv t h1

/-- Witness for C3 (amended): ceilings `k = 1`, `H = 1`, identifier `"u"`,
minute window 0, call times `[0, 1]`. -/
theorem isAllowed_minute_window_spec_witness :
    (∃ r : ℤ, (runIsAllowed ⟨1, 1⟩ "u" [0, 1] emptyRLCache).1 =
        List.replicate 1 (true, none) ++ [(false, some r)] ∧ 0 < r ∧ r ≤ 60) ∧
    ∀ i, i ≤ 1 → ∀ t, 60 * ((0 : ℕ) : ℚ) ≤ t → t < 60 * (((0 : ℕ) : ℚ) + 1) →
      cacheGet (runIsAllowed ⟨1, 1⟩ "u" ([0, 1].take i) emptyRLCache).2 t
          ⟨"u", Window.minute, ((0 : ℕ) : ℤ)⟩ = i ∧
      cacheGet (runIsAllowed ⟨1, 1⟩ "u" ([0, 1].take i) emptyRLCache).2 t
          ⟨"u", Window.hour, ((0 / 60 : ℕ) : ℤ)⟩ = i :=
  isAllowed_minute_window_spec 1 1 (le_refl 1) "u" 0 [0, 1] rfl
    (by
      intro t ht
      rcases List.mem_cons.1 ht with h | h
      · subst h; norm_num
      · rcases List.mem_cons.1 h with h2 | h2
        · subst h2; norm_num
        · exact absurd h2 (List.not_mem_nil t))

/-- C3 counterexample: the claim quantifies over every configured minute
ceiling `k`, but the hour ceiling is checked by the same call. With
`requests_per_minute = 1` and `requests_per_hour = 0`, the very first call —
the 1st of the claimed `k` allowed calls — is denied by the hour ceiling with
`retry_after = 3600`, which also violates `0 < r ≤ 60`. -/
theorem isAllowed_minute_window_cex :
    (isAllowed ⟨1, 0⟩ "u" 0 emptyRLCache).1 = (false, some 3600) ∧
    ¬ ((3600 : ℤ) ≤ 60) := by
  constructor
  · rw [isAllowed]
    norm_num [cacheGet, emptyRLCache, pyMod, pyInt]
  · decide

/-- C10: whenever `is_allowed` returns `(false, r)` — by either ceiling — the
cache is returned unchanged: a denied request consumes no rate-limit budget
in the minute window or the hour window. -/
theorem isAllowed_denied_no_mutation (rl : RateLimiter) (idf : String)
    (t : ℚ) (c : RLCache) (h : (isAllowed rl idf t c).1.1 = false) :
    (isAllowed rl idf t c).2 = c := by
  simp only [isAllowed] at h ⊢
  split_ifs at h ⊢
  · rfl
  · rfl

/-- Witness for C10 at ceilings `0/0`, identifier `"u"`, time 0, empty
cache. -/
theorem isAllowed_denied_no_mutation_witness :
    (isAllowed ⟨0, 0⟩ "u" 0 emptyRLCache).2 = emptyRLCache :=
  isAllowed_denied_no_mutation ⟨0, 0⟩ "u" 0 emptyRLCache
    (by simp [isAllowed, cacheGet, emptyRLCache])

/-- Whatever the threshold loop accepts exceeds 100. -/
theorem tryCountKeyOver100_gt (fields : List (String × Json)) (key : String)
    (n : ℤ) (h : tryCountKeyOver100 fields key = some n) : 100 < n := by
  rw [tryCountKeyOver100] at h
  rcases hl : lookupField fields key with _ | v
  · simp [hl] at h
  · simp only [hl] at h
    rcases hj : jsonToInt v with _ | m
    · simp [hj] at h
    · simp only [hj] at h
      by_cases hm : 100 < m
      · rw [if_pos hm] at h
        obtain rfl : m = n := by injection h
        exact hm
      · rw [if_neg hm] at h
        simp at h

/-- Whatever the first loop of `find_total` returns exceeds 100. -/
theorem checkKeys1_gt (fields : List (String × Json)) (n : ℤ)
    (h : checkKeys1 fields = some n) : 100 < n := by
  rw [checkKeys1] at h
  rcases h1 : tryCountKeyOver100 fields "totalResultCount" with _ | m1
  · simp only [h1] at h
    rcases h2 : tryCountKeyOver100 fields "resultCount" with _ | m2
    · simp only [h2] at h
      exact tryCountKeyOver100_gt fields "totalCount" n h
    · simp only [h2] at h
      obtain rfl : m2 = n := by injection h
      exact tryCountKeyOver100_gt fields "resultCount" _ h2
  · simp only [h1] at h
    obtain rfl : m1 = n := by injection h
    exact tryCountKeyOver100_gt fields "totalResultCount" _ h1

mutual

/-- On documents with no `listResults` key anywhere, a nonzero `find_total`
result always exceeds the 100 sanity threshold (so a count of 45 is always
skipped). -/
theorem findTotal_bound (j : Json) (h : noListResults j = true) :
    findTotal j = 0 ∨ 100 < findTotal j := by
  cases j with
  | obj fields =>
      rw [noListResults, Bool.and_eq_true] at h
      have hlr : (lookupField fields "listResults").isSome = false := by
        have := h.1
        simpa using this
      rcases h1 : checkKeys1 fields with _ | n
      · have hred : findTotal (Json.obj fields) = findTotalValues fields := by
          simp only [findTotal, h1, hlr, Bool.false_eq_true, if_false]
        rw [hred]
        exact findTotalValues_bound fields h.2
      · have hred : findTotal (Json.obj fields) = n := by
          simp only [findTotal, h1]
        rw [hred]
        exact Or.inr (checkKeys1_gt fields n h1)
  | arr items =>
      rw [noListResults] at h
      have hred : findTotal (Json.arr items) = findTotalItems items := by
        simp only [findTotal]
      rw [hred]
      exact findTotalItems_bound items h
  | null => exact Or.inl (by simp only [findTotal])
  | bool b => exact Or.inl (by simp only [findTotal])
  | num n => exact Or.inl (by simp only [findTotal])
  | str s => exact Or.inl (by simp only [findTotal])

/-- Field-list form of `findTotal_bound`. -/
theorem findTotalValues_bound (fields : List (String × Json))
    (h : noListResultsFields fields = true) :
    findTotalValues fields = 0 ∨ 100 < findTotalValues fields := by
  cases fields with
  | nil => exact Or.inl (by simp only [findTotalValues])
  | cons f rest =>
      obtain ⟨k, v⟩ := f
      rw [noListResultsFields, Bool.and_eq_true] at h
      simp only [findTotalValues]
      by_cases hv : findTotal v ≠ 0
      · rw [if_pos hv]
        rcases findTotal_bound v h.1 with h0 | h100
        · exact absurd h0 hv
        · exact Or.inr h100
      · rw [if_neg hv]
        exact findTotalValues_bound rest h.2

/-- Item-list form of `findTotal_bound`. -/
theorem findTotalItems_bound (items : List Json)
    (h : noListResultsItems items = true) :
    findTotalItems items = 0 ∨ 100 < findTotalItems items := by
  cases items with
  | nil => exact Or.inl (by simp only [findTotalItems])
  | cons v rest =>
      rw [noListResultsItems, Bool.and_eq_true] at h
      simp only [findTotalItems]
      by_cases hv : findTotal v ≠ 0
      · rw [if_pos hv]
        rcases findTotal_bound v h.1 with h0 | h100
        · exact absurd h0 hv
        · exact Or.inr h100
      · rw [if_neg hv]
        exact findTotalItems_bound rest h.2

end

/-- C8 (amended): on every document with no `listResults` key, a nonzero
result of the recursive total-count finder exceeds the 100-sanity threshold,
so a count of 45 is always skipped in favour of a deeper value; in
particular the crafted 45-then-230 document yields 230. (Objects that do
contain `listResults` take the second loop, which returns a count with no
threshold — see the counterexample.) -/
theorem findTotal_threshold_spec :
    (∀ j : Json, noListResults j = true →
      findTotal j = 0 ∨ 100 < findTotal j) ∧
    findTotal nested45then230 = 230 := by
  refine ⟨findTotal_bound, ?_⟩
  simp [nested45then230, findTotal, findTotalValues, findTotalItems,
    checkKeys1, checkKeys2, tryCountKeyOver100, tryCountKey, lookupField,
    jsonToInt]

/-- Witness for C8 at the crafted document itself. -/
theorem findTotal_threshold_spec_witness :
    (findTotal nested45then230 = 0 ∨ 100 < findTotal nested45then230) ∧
    findTotal nested45then230 = 230 :=
  ⟨findTotal_threshold_spec.1 nested45then230
      (by simp [nested45then230, noListResults, noListResultsFields,
        noListResultsItems, lookupField]),
    findTotal_threshold_spec.2⟩

/-- C8 counterexample: `find_total` on `listResultsDoc` returns 45, not the
first value exceeding 100 in traversal order (which is 230): the
`listResults` branch returns the container's count with no threshold. -/
theorem findTotal_threshold_cex :
    findTotal listResultsDoc = 45 ∧ ¬ (100 < (45 : ℤ)) := by
  refine ⟨?_, by decide⟩
  simp [listResultsDoc, findTotal, findTotalValues, findTotalItems,
    checkKeys1, checkKeys2, tryCountKeyOver100, tryCountKey, lookupField,
    jsonToInt]

/-- C9 (amended): for the operations that backfill — property search and
agent properties — a non-empty result list always carries a nonzero total:
when no upstream total was discovered it is backfilled with the observed
count. (Agent reviews does not backfill — see the counterexample.) -/
theorem resultPage_total_backfill :
    (∀ (data : Json) (jsonProps fallbackProps : List Json),
      (parseSearchResultsAgg data jsonProps fallbackProps).1 ≠ [] →
      (parseSearchResultsAgg data jsonProps fallbackProps).2 ≠ 0) ∧
    (∀ (scriptProps htmlProps : List Json) (totalFound : ℤ)
      (res : List Json × ℤ),
      getAgentPropertiesAgg scriptProps totalFound htmlProps = Except.ok res →
      res.1 ≠ [] ∧ res.2 ≠ 0) := by
  constructor
  · intro data jsonProps fallbackProps hne
    rw [parseSearchResultsAgg] at hne ⊢
    by_cases hj : jsonProps.isEmpty
    · rw [if_pos hj] at hne ⊢
      have hlen : 0 < fallbackProps.length :=
        List.length_pos.2 (by simpa using hne)
      show (fallbackProps.length : ℤ) ≠ 0
      exact_mod_cast Nat.pos_iff_ne_zero.1 hlen
    · rw [if_neg hj] at hne ⊢
      by_cases ht : (if 0 < findTotal data then findTotal data else 0) = 0
      · rw [if_pos ht]
        have hlen : 0 < jsonProps.length :=
          List.length_pos.2 (by simpa using hj)
        show (jsonProps.length : ℤ) ≠ 0
        exact_mod_cast Nat.pos_iff_ne_zero.1 hlen
      · rw [if_neg ht]
        exact ht
  · intro scriptProps htmlProps totalFound res h
    rw [getAgentPropertiesAgg] at h
    by_cases hp : (if scriptProps.isEmpty then htmlProps else scriptProps).isEmpty
    · rw [if_pos hp] at h
      exact absurd h (by simp)
    · rw [if_neg hp] at h
      have hres := Except.ok.inj h
      rw [← hres]
      constructor
      · simpa using hp
      · by_cases ht : totalFound = 0
        · rw [if_pos ht]
          have hlen : 0 < (if scriptProps.isEmpty then htmlProps else scriptProps).length :=
            List.length_pos.2 (by simpa using hp)
          show ((if scriptProps.isEmpty then htmlProps else scriptProps).length : ℤ) ≠ 0
          exact_mod_cast Nat.pos_iff_ne_zero.1 hlen
        · rw [if_neg ht]
          exact ht

/-- Witness for C9 at one-card inputs with no discovered total. -/
theorem resultPage_total_backfill_witness :
    (parseSearchResultsAgg Json.null [Json.null] []).2 ≠ 0 ∧
    ([Json.null] ≠ ([] : List Json) ∧ (1 : ℤ) ≠ 0) :=
  ⟨resultPage_total_backfill.1 Json.null [Json.null] [] (by simp [parseSearchResultsAgg]),
    resultPage_total_backfill.2 [Json.null] [] 0 ([Json.null], 1) rfl⟩

/-- C9 counterexample: `get_agent_reviews` with script data holding exactly
one parsable review and no discoverable total returns a non-empty result
list with `total_reviews = 0` — the observed count is not backfilled, so the
claimed invariant fails for the agent-reviews operation. -/
theorem resultPage_total_backfill_cex :
    getAgentReviewsCore
        (some (Json.obj [("reviews", Json.arr [Json.obj [("rating", Json.num 5)]])]))
        [] =
      Except.ok ([Json.obj [("rating", Json.num 5)]], Json.num 0) := by
  rfl

end ZillowScraper
